import Mathlib

/-!
Verification of the adaptive polling engine (`Poll` class) of this
repository.  The TypeScript source is shallowly embedded: JS numbers are
modelled as `ℚ` (all arithmetic the code performs on them is exact rational
arithmetic: `Math.round`, `Math.abs`, `Math.min`, `Math.max`, `*`, `+`),
`Math.random()` draws are passed in explicitly as event parameters, promises
(`PromiseDelegate`) are modelled by natural-number identities, and the
single-threaded event loop is modelled by a step function over explicit
environment events (gate settlement, timer/frame firing, factory settlement,
`refresh()` and `dispose()` calls).  Every observable action of the code
(state installation, factory invocation, promise resolution/rejection,
signal emission) is recorded in an observation log.
-/

namespace PollSpec

/-- The poll phases, mirroring `Poll.Phase` in the source:
`'reconnect' | 'refresh' | 'rejected' | 'resolved' | 'standby' |
'when-rejected' | 'when-resolved'`. -/
inductive Phase where
  | reconnect
  | refresh
  | rejected
  | resolved
  | standby
  | whenRejected
  | whenResolved
deriving DecidableEq, Repr

/-- `Poll.State<T, U>` from the source: the immutable record installed at
each tick.  `payload` is `null` (`none`), a success value (`Sum.inl`) or a
failure reason (`Sum.inr`); `tick` is the wall-clock timestamp. -/
structure TickState (T U : Type) where
  interval : ℚ
  payload : Option (T ⊕ U)
  phase : Phase
  tick : ℕ
deriving DecidableEq, Repr

/-- The immutable configuration recorded by the constructor after
validation and defaulting (`this.interval`, `this.max`, `this.min`,
`this.name`, `this.variance`). -/
structure Config where
  interval : ℚ
  max : ℚ
  min : ℚ
  name : String
  variance : ℚ
deriving DecidableEq, Repr

/-- `Poll.IOptions<T, U>`: the numeric and name options are all optional
(`undefined` is `none`).  The `factory` and `when` members are behavioural
and are modelled by environment events instead. -/
structure Options where
  interval : Option ℚ
  max : Option ℚ
  min : Option ℚ
  name : Option String
  variance : Option ℚ
deriving DecidableEq, Repr

/-- Observable actions of the engine, one constructor per effectful line of
the source: `installed` for the `this._state = state` assignment in
`_schedule`, `invoked` for the `this._factory(this._state)` call in
`_execute`, `resolvedTick` for `poll.resolve(this)`, `ticked` for
`this._ticked.emit()`, `rejectedTick` for `poll.reject(...)` in `dispose`,
`disposedSig` for `this._disposed.emit()`, and `warned` for the
`console.warn` on gate rejection. -/
inductive Obs (T U : Type) where
  | installed (s : TickState T U)
  | invoked (tickId : ℕ) (s : TickState T U)
  | resolvedTick (tickId : ℕ)
  | ticked
  | rejectedTick (tickId : ℕ)
  | disposedSig
  | warned
deriving DecidableEq, Repr

/-- The mutable instance state of a `Poll`.  `_tick` holds the identity of
the outstanding `PromiseDelegate` (`null` is `none`); `fresh` is the supply
of delegate identities; `pendingTimeout` is the armed `setTimeout` handle if
any (holding the tick identity its `request` closure captured);
`pendingFrames` are the armed `requestAnimationFrame` callbacks, which
`clearTimeout(this._timeout)` never cancels; `inflight` are the factory
invocations that have been started and have not yet settled; `gateDone`
records whether the constructor's `when` continuation has already run, and
`gatePoll` is the delegate identity that continuation captured. -/
structure Poll (T U : Type) where
  cfg : Config
  isDisposed : Bool
  state : TickState T U
  tick : Option ℕ
  fresh : ℕ
  pendingTimeout : Option ℕ
  pendingFrames : List ℕ
  inflight : List ℕ
  gateDone : Bool
  gatePoll : ℕ
deriving DecidableEq, Repr

/-- `Private.jitter(base, factor, min, max)` from the source.  The two
`Math.random()` draws are passed explicitly: `dir` decides the sign
(`Math.random() < 0.5 ? 1 : -1`) and `eps` is the second draw (`∈ [0, 1)` in
the host).  When `factor === 0` the code returns `Math.round(base)` with no
clamping; otherwise the candidate `|round(base + eps·base·|factor|·dir)|` is
clamped by `Math.min(Math.max(min, candidate), max)`. -/
def jitter (base factor mn mx : ℚ) (dir : Bool) (eps : ℚ) : ℚ :=
  if factor = 0 then ((round base : ℤ) : ℚ)
  else
    let direction : ℚ := if dir then 1 else -1
    let j : ℚ := eps * base * |factor| * direction
    let candidate : ℚ := |(((round (base + j) : ℤ) : ℚ))|
    min (max mn candidate) mx

/-- The instance state produced by the constructor body after validation,
for a recorded configuration `c` at time `now`: initial `standby` state with
the nominal interval, the first `PromiseDelegate` (identity `0`) installed
as `this._tick`, no armed timer (`this._timeout = 0`), and the `when`
continuation (which captured delegate `0`) still pending. -/
def initPoll (T U : Type) (c : Config) (now : ℕ) : Poll T U :=
  { cfg := c
    isDisposed := false
    state := ⟨c.interval, none, Phase.standby, now⟩
    tick := some 0
    fresh := 1
    pendingTimeout := none
    pendingFrames := []
    inflight := []
    gateDone := false
    gatePoll := 0 }

/-- JS `>` on possibly-`undefined` numbers: a comparison with `undefined`
is `false`.  Used by the constructor's validation, which runs on the raw
option values before defaulting. -/
def jsGt (a b : Option ℚ) : Bool :=
  match a, b with
  | some x, some y => decide (y < x)
  | _, _ => false

/-- The constructor `Poll(options)`: validation (`interval > max` throws,
then `min > max || min > interval` throws), then defaulting
(`interval = round(|i|)` or `1000`; `max = |m|` or `10 * interval`;
`min = |m|` or `100`; `name = name || 'unknown'`, so the empty string also
defaults; `variance` or `0.2`), then the initial instance state. -/
def construct (T U : Type) (o : Options) (now : ℕ) : Except String (Poll T U) :=
  if jsGt o.interval o.max then
    Except.error "Poll interval cannot exceed max interval length"
  else if jsGt o.min o.max || jsGt o.min o.interval then
    Except.error "Poll min cannot exceed poll interval or poll max"
  else
    let i : ℚ := match o.interval with
      | some x => ((round |x| : ℤ) : ℚ)
      | none => 1000
    let mx : ℚ := match o.max with
      | some x => |x|
      | none => 10 * i
    let mn : ℚ := match o.min with
      | some x => |x|
      | none => 100
    let nm : String := match o.name with
      | some s => if s = "" then "unknown" else s
      | none => "unknown"
    let v : ℚ := match o.variance with
      | some x => x
      | none => 1 / 5
    Except.ok (initPoll T U ⟨i, mx, mn, nm, v⟩ now)

/-- `Poll._schedule(state)`: install the state, create the next
`PromiseDelegate` and set the outstanding reference, `clearTimeout` the
prior handle (which cancels the pending `setTimeout`, if any, but never a
pending `requestAnimationFrame`), and arm `setTimeout(request,
state.interval)` when `state.interval` is truthy, else
`requestAnimationFrame(request)`; `request` captures the new delegate. -/
def schedule {T U : Type} (p : Poll T U) (s : TickState T U) :
    Poll T U × List (Obs T U) :=
  ({ p with
      state := s
      tick := some p.fresh
      fresh := p.fresh + 1
      pendingTimeout := if s.interval = 0 then none else some p.fresh
      pendingFrames :=
        if s.interval = 0 then p.fresh :: p.pendingFrames else p.pendingFrames },
    [Obs.installed s])

/-- `Poll._resolve(poll, state)`: `_schedule(state)`; then, when `poll` is
non-null, subscribe the `ticked` emission to its promise and resolve it;
return `this._tick` (the delegate `_schedule` just created). -/
def resolveTick {T U : Type} (p : Poll T U) (pollOpt : Option ℕ)
    (s : TickState T U) : (Poll T U × List (Obs T U)) × Option ℕ :=
  let q := schedule p s
  match pollOpt with
  | some id => ((q.1, q.2 ++ [Obs.resolvedTick id, Obs.ticked]), q.1.tick)
  | none => (q, q.1.tick)

/-- `Poll.refresh()`: `_resolve(this._tick, { interval: 0, payload: null,
phase: 'refresh', tick: now })`.  There is no disposal check. -/
def refreshRun {T U : Type} (p : Poll T U) (now : ℕ) :
    Poll T U × List (Obs T U) :=
  (resolveTick p p.tick ⟨0, none, Phase.refresh, now⟩).1

/-- The promise `Poll.refresh()` returns: the second component of
`_resolve`, i.e. the new outstanding delegate. -/
def refreshRet {T U : Type} (p : Poll T U) (now : ℕ) : Option ℕ :=
  (resolveTick p p.tick ⟨0, none, Phase.refresh, now⟩).2

/-- `Poll.dispose()`: no-op when already disposed; otherwise mark disposed,
and if `this._tick` is non-null, null it, attach the silent handler and
reject it, then emit `disposed`.  Note that the pending timer/frame handle
is not cleared. -/
def disposeRun {T U : Type} (p : Poll T U) : Poll T U × List (Obs T U) :=
  if p.isDisposed then (p, [])
  else
    match p.tick with
    | some id =>
        ({ p with isDisposed := true, tick := none },
          [Obs.rejectedTick id, Obs.disposedSig])
    | none => ({ p with isDisposed := true }, [Obs.disposedSig])

/-- `Poll._execute(poll)`, run when the armed timer or frame fires with the
captured delegate identity `pollId`: bail when disposed; when the document
is hidden, `_resolve(poll, standby-with-jittered-interval)` without calling
the factory; otherwise invoke `this._factory(this._state)` (the settlement
arrives later as a separate event). -/
def executeRun {T U : Type} (p : Poll T U) (pollId : ℕ) (hidden : Bool)
    (dir : Bool) (eps : ℚ) (now : ℕ) : Poll T U × List (Obs T U) :=
  if p.isDisposed then (p, [])
  else if hidden then
    (resolveTick p (some pollId)
      ⟨jitter p.cfg.interval p.cfg.variance p.cfg.min p.cfg.max dir eps,
        none, Phase.standby, now⟩).1
  else
    ({ p with inflight := pollId :: p.inflight },
      [Obs.invoked pollId p.state])

/-- The `.then`/`.catch` continuation of the factory promise in
`_execute`, with the invocation already removed from the in-flight set:
bail when disposed; bail when the captured delegate has been superseded
(`poll !== this._tick`); on success install the jittered nominal interval
with phase `reconnect` when the current phase is `rejected` and `resolved`
otherwise; on failure double the current interval (capped at `max`), jitter
it and install phase `rejected` with the reason as payload. -/
def settleRun {T U : Type} (p : Poll T U) (pollId : ℕ) (outcome : T ⊕ U)
    (dir : Bool) (eps : ℚ) (now : ℕ) : Poll T U × List (Obs T U) :=
  if p.isDisposed then (p, [])
  else if p.tick ≠ some pollId then (p, [])
  else
    match outcome with
    | Sum.inl v =>
        (resolveTick p (some pollId)
          ⟨jitter p.cfg.interval p.cfg.variance p.cfg.min p.cfg.max dir eps,
            some (Sum.inl v),
            if p.state.phase = Phase.rejected then Phase.reconnect
            else Phase.resolved,
            now⟩).1
    | Sum.inr r =>
        (resolveTick p (some pollId)
          ⟨jitter (min (p.state.interval * 2) p.cfg.max) p.cfg.variance
              p.cfg.min p.cfg.max dir eps,
            some (Sum.inr r), Phase.rejected, now⟩).1

/-- The constructor's `when` continuation: bail when disposed (after
marking itself run); otherwise `_resolve` the captured delegate with a
`when-resolved` or `when-rejected` state at the nominal interval, and warn
on the rejection path. -/
def gateSettleRun {T U : Type} (p : Poll T U) (ok : Bool) (now : ℕ) :
    Poll T U × List (Obs T U) :=
  let p0 : Poll T U := { p with gateDone := true }
  if p0.isDisposed then (p0, [])
  else
    let r := (resolveTick p0 (some p0.gatePoll)
      ⟨p0.cfg.interval, none,
        if ok then Phase.whenResolved else Phase.whenRejected, now⟩).1
    if ok then r else (r.1, r.2 ++ [Obs.warned])

/-- Environment events: the settlement of the constructor's `when` promise,
the firing of an armed timer/frame (`hidden` is `document.hidden` at that
moment; `dir`/`eps` are the random draws a hidden-path jitter would use),
the settlement of a started factory invocation, and the public `refresh()`
and `dispose()` calls. -/
inductive Event (T U : Type) where
  | gate (ok : Bool) (now : ℕ)
  | fire (id : ℕ) (hidden : Bool) (dir : Bool) (eps : ℚ) (now : ℕ)
  | settle (id : ℕ) (outcome : T ⊕ U) (dir : Bool) (eps : ℚ) (now : ℕ)
  | refresh (now : ℕ)
  | dispose
deriving DecidableEq, Repr

/-- Whether an event is a `refresh()` call. -/
def Event.isRefresh {T U : Type} : Event T U → Bool
  | Event.refresh _ => true
  | _ => false

/-- One event-loop step.  Events that cannot occur (a second gate
settlement, the firing of a handle that is not armed, the settlement of an
invocation that was never started) leave the poll unchanged. -/
def step {T U : Type} (p : Poll T U) : Event T U → Poll T U × List (Obs T U)
  | Event.gate ok now => if p.gateDone then (p, []) else gateSettleRun p ok now
  | Event.fire id hidden dir eps now =>
      if p.pendingTimeout = some id then
        executeRun { p with pendingTimeout := none } id hidden dir eps now
      else if id ∈ p.pendingFrames then
        executeRun { p with pendingFrames := p.pendingFrames.erase id }
          id hidden dir eps now
      else (p, [])
  | Event.settle id outcome dir eps now =>
      if id ∈ p.inflight then
        settleRun { p with inflight := p.inflight.erase id }
          id outcome dir eps now
      else (p, [])
  | Event.refresh now => refreshRun p now
  | Event.dispose => disposeRun p

/-- Run a list of events, concatenating the observation logs. -/
def run {T U : Type} (p : Poll T U) : List (Event T U) → Poll T U × List (Obs T U)
  | [] => (p, [])
  | e :: es =>
      let q := step p e
      let r := run q.1 es
      (r.1, q.2 ++ r.2)

/-- The `tick` accessor `get tick() { return this._tick.promise; }`:
`none` models the `TypeError` thrown when `this._tick` is `null`. -/
def tickAccess {T U : Type} (p : Poll T U) : Option ℕ :=
  p.tick

/-- The states carried by the `installed` entries of an observation log, in
installation order. -/
def installedStates {T U : Type} (l : List (Obs T U)) : List (TickState T U) :=
  l.filterMap fun o =>
    match o with
    | Obs.installed s => some s
    | _ => none

/-- A standard configuration used by the concrete scenarios of the spec:
`{interval: 1000, min: 100, max: 10000, variance: 0}`. -/
def cfgStd : Config := ⟨1000, 10000, 100, "unknown", 0⟩

/-! ### Structural lemmas about the step function -/

theorem resolveTick_poll {T U : Type} (p : Poll T U) (o : Option ℕ)
    (s : TickState T U) : (resolveTick p o s).1.1 = (schedule p s).1 := by
  cases o <;> rfl

theorem step_disposed_mono {T U : Type} (p : Poll T U) (e : Event T U)
    (h : p.isDisposed = true) : (step p e).1.isDisposed = true := by
  cases e with
  | gate ok now =>
      by_cases hg : p.gateDone
      · simp [step, hg, h]
      · simp [step, hg, gateSettleRun, h]
  | fire id hidden dir eps now =>
      by_cases h1 : p.pendingTimeout = some id
      · simp [step, h1, executeRun, h]
      · by_cases h2 : id ∈ p.pendingFrames
        · simp [step, h1, h2, executeRun, h]
        · simp [step, h1, h2, h]
  | settle id o dir eps now =>
      by_cases h1 : id ∈ p.inflight
      · simp [step, h1, settleRun, h]
      · simp [step, h1, h]
  | refresh now =>
      cases htick : p.tick <;>
        simp [step, refreshRun, resolveTick, htick, schedule, h]
  | dispose => simp [step, disposeRun, h]

theorem step_disposed_obs_empty {T U : Type} (p : Poll T U) (e : Event T U)
    (h : p.isDisposed = true) (hr : e.isRefresh = false) : (step p e).2 = [] := by
  cases e with
  | gate ok now =>
      by_cases hg : p.gateDone
      · simp [step, hg]
      · simp [step, hg, gateSettleRun, h]
  | fire id hidden dir eps now =>
      by_cases h1 : p.pendingTimeout = some id
      · simp [step, h1, executeRun, h]
      · by_cases h2 : id ∈ p.pendingFrames
        · simp [step, h1, h2, executeRun, h]
        · simp [step, h1, h2]
  | settle id o dir eps now =>
      by_cases h1 : id ∈ p.inflight
      · simp [step, h1, settleRun, h]
      · simp [step, h1]
  | refresh now => simp [Event.isRefresh] at hr
  | dispose => simp [step, disposeRun, h]

theorem step_disposed_no_invoked {T U : Type} (p : Poll T U) (e : Event T U)
    (h : p.isDisposed = true) (id : ℕ) (s : TickState T U) :
    Obs.invoked id s ∉ (step p e).2 := by
  cases e with
  | refresh now =>
      cases htick : p.tick <;>
        simp [step, refreshRun, resolveTick, htick, schedule]
  | gate ok now =>
      rw [step_disposed_obs_empty p _ h (by simp [Event.isRefresh])]
      simp
  | fire id2 hidden dir eps now =>
      rw [step_disposed_obs_empty p _ h (by simp [Event.isRefresh])]
      simp
  | settle id2 o dir eps now =>
      rw [step_disposed_obs_empty p _ h (by simp [Event.isRefresh])]
      simp
  | dispose =>
      rw [step_disposed_obs_empty p _ h (by simp [Event.isRefresh])]
      simp

theorem run_disposed_mono {T U : Type} (p : Poll T U) (evs : List (Event T U))
    (h : p.isDisposed = true) : (run p evs).1.isDisposed = true := by
  induction evs generalizing p with
  | nil => exact h
  | cons e es ih => exact ih (step p e).1 (step_disposed_mono p e h)

theorem run_disposed_no_invoked {T U : Type} (p : Poll T U)
    (evs : List (Event T U)) (h : p.isDisposed = true) (id : ℕ)
    (s : TickState T U) : Obs.invoked id s ∉ (run p evs).2 := by
  induction evs generalizing p with
  | nil => simp [run]
  | cons e es ih =>
      simp only [run, List.mem_append]
      rintro (h1 | h2)
      · exact step_disposed_no_invoked p e h id s h1
      · exact ih (step p e).1 (step_disposed_mono p e h) h2

theorem run_disposed_obs_empty {T U : Type} (p : Poll T U)
    (evs : List (Event T U)) (h : p.isDisposed = true)
    (hr : ∀ e ∈ evs, e.isRefresh = false) : (run p evs).2 = [] := by
  induction evs generalizing p with
  | nil => simp [run]
  | cons e es ih =>
      simp only [run, List.append_eq_nil]
      exact ⟨step_disposed_obs_empty p e h (hr e (by simp)),
        ih (step p e).1 (step_disposed_mono p e h)
          (fun e2 he2 => hr e2 (by simp [he2]))⟩

theorem step_settle_stale {T U : Type} (p : Poll T U) (id : ℕ) (o : T ⊕ U)
    (dir : Bool) (eps : ℚ) (now : ℕ) (h : p.tick ≠ some id) :
    (step p (Event.settle id o dir eps now)).1.state = p.state ∧
    (step p (Event.settle id o dir eps now)).1.tick = p.tick ∧
    (step p (Event.settle id o dir eps now)).2 = [] := by
  by_cases h1 : id ∈ p.inflight
  · by_cases hd : p.isDisposed
    · simp [step, h1, settleRun, hd]
    · simp [step, h1, settleRun, hd, h]
  · simp [step, h1]

theorem step_disposed_tick_none {T U : Type} (p : Poll T U) (e : Event T U)
    (h : p.isDisposed = true) (ht : p.tick = none) (hr : e.isRefresh = false) :
    (step p e).1.tick = none := by
  cases e with
  | gate ok now =>
      by_cases hg : p.gateDone
      · simp [step, hg, ht]
      · simp [step, hg, gateSettleRun, h, ht]
  | fire id hidden dir eps now =>
      by_cases h1 : p.pendingTimeout = some id
      · simp [step, h1, executeRun, h, ht]
      · by_cases h2 : id ∈ p.pendingFrames
        · simp [step, h1, h2, executeRun, h, ht]
        · simp [step, h1, h2, ht]
  | settle id o dir eps now =>
      by_cases h1 : id ∈ p.inflight
      · simp [step, h1, settleRun, h, ht]
      · simp [step, h1, ht]
  | refresh now => simp [Event.isRefresh] at hr
  | dispose => simp [step, disposeRun, h, ht]

theorem run_disposed_tick_none {T U : Type} (p : Poll T U)
    (evs : List (Event T U)) (h : p.isDisposed = true) (ht : p.tick = none)
    (hr : ∀ e ∈ evs, e.isRefresh = false) : (run p evs).1.tick = none := by
  induction evs generalizing p with
  | nil => exact ht
  | cons e es ih =>
      exact ih (step p e).1 (step_disposed_mono p e h)
        (step_disposed_tick_none p e h ht (hr e (by simp)))
        (fun e2 he2 => hr e2 (by simp [he2]))

/-! ### Lemmas about the jitter function -/

theorem jitter_factor_zero (base mn mx : ℚ) (dir : Bool) (eps : ℚ) :
    jitter base 0 mn mx dir eps = ((round base : ℤ) : ℚ) := by
  simp [jitter]

theorem jitter_clamped {f : ℚ} (hf : f ≠ 0) (base mn mx : ℚ) (hle : mn ≤ mx)
    (dir : Bool) (eps : ℚ) :
    mn ≤ jitter base f mn mx dir eps ∧ jitter base f mn mx dir eps ≤ mx := by
  unfold jitter
  rw [if_neg hf]
  exact ⟨le_min (le_max_left _ _) hle, min_le_right _ _⟩

theorem jitter_int {f : ℚ} (hf : f ≠ 0) (base mn mx : ℚ)
    (hmn : ∃ a : ℤ, mn = a) (hmx : ∃ a : ℤ, mx = a) (dir : Bool) (eps : ℚ) :
    ∃ a : ℤ, jitter base f mn mx dir eps = a := by
  obtain ⟨a, ha⟩ := hmn
  obtain ⟨b, hb⟩ := hmx
  refine ⟨min (max a |round (base + eps * base * |f| * (if dir then 1 else -1))|) b, ?_⟩
  unfold jitter
  rw [if_neg hf]
  dsimp only
  rw [ha, hb]
  push_cast
  rfl

theorem jitter_base_in_range {f : ℚ} (base mn mx : ℚ)
    (h1 : mn ≤ base) (h2 : base ≤ mx) (hbase : ∃ a : ℤ, base = a)
    (hmn : ∃ a : ℤ, mn = a) (hmx : ∃ a : ℤ, mx = a) (dir : Bool) (eps : ℚ) :
    mn ≤ jitter base f mn mx dir eps ∧ jitter base f mn mx dir eps ≤ mx ∧
      ∃ a : ℤ, jitter base f mn mx dir eps = a := by
  by_cases hf : f = 0
  · subst hf
    obtain ⟨a, ha⟩ := hbase
    rw [jitter_factor_zero, ha, round_intCast]
    exact ⟨by rw [← ha]; exact h1, by rw [← ha]; exact h2, a, rfl⟩
  · exact ⟨(jitter_clamped hf base mn mx (h1.trans h2) dir eps).1,
      (jitter_clamped hf base mn mx (h1.trans h2) dir eps).2,
      jitter_int hf base mn mx hmn hmx dir eps⟩

theorem jitter_base_zero {f : ℚ} (hf : f ≠ 0) (mn mx : ℚ) (hmn : 0 ≤ mn)
    (hle : mn ≤ mx) (dir : Bool) (eps : ℚ) :
    jitter 0 f mn mx dir eps = mn := by
  unfold jitter
  rw [if_neg hf]
  dsimp only
  rw [mul_zero, zero_mul, zero_mul, zero_add]
  simp [round_zero, max_eq_left hmn, min_eq_left hle]

/-! ### Well-formedness of tick identities

Every delegate identity held anywhere in the instance state is strictly
below the `fresh` supply, and a live poll always has an outstanding
delegate (the constructor installs one and only `dispose` nulls it). -/

def WF {T U : Type} (p : Poll T U) : Prop :=
  (p.isDisposed = false → ∃ t, p.tick = some t) ∧
  (∀ t, p.tick = some t → t < p.fresh) ∧
  (∀ t ∈ p.inflight, t < p.fresh) ∧
  (∀ t, p.pendingTimeout = some t → t < p.fresh) ∧
  (∀ t ∈ p.pendingFrames, t < p.fresh)

theorem initPoll_WF (T U : Type) (c : Config) (now : ℕ) :
    WF (initPoll T U c now) := by
  refine ⟨fun _ => ⟨0, rfl⟩, ?_, by simp [initPoll], ?_, by simp [initPoll]⟩
  · intro t ht
    simp only [initPoll, Option.some.injEq] at ht
    simp [initPoll, ← ht]
  · intro t ht
    simp [initPoll] at ht

theorem schedule_WF {T U : Type} (p : Poll T U) (s : TickState T U)
    (h : WF p) : WF (schedule p s).1 := by
  obtain ⟨_, _, h3, _, h5⟩ := h
  refine ⟨fun _ => ⟨p.fresh, by simp [schedule]⟩, ?_, ?_, ?_, ?_⟩
  · intro t ht
    simp only [schedule, Option.some.injEq] at ht
    simp [schedule, ← ht]
  · intro t ht
    simp only [schedule] at ht
    exact (h3 t ht).trans (Nat.lt_succ_self _)
  · intro t ht
    simp only [schedule] at ht
    split at ht
    · exact absurd ht (by simp)
    · simp only [Option.some.injEq] at ht
      simp [schedule, ← ht]
  · intro t ht
    simp only [schedule] at ht
    split at ht
    · rcases List.mem_cons.1 ht with h' | h'
      · subst h'
        simp [schedule]
      · exact ((h5 t h').trans (Nat.lt_succ_self _))
    · exact ((h5 t ht).trans (Nat.lt_succ_self _))

theorem resolveTick_WF {T U : Type} (p : Poll T U) (o : Option ℕ)
    (s : TickState T U) (h : WF p) : WF (resolveTick p o s).1.1 := by
  rw [resolveTick_poll]
  exact schedule_WF p s h

theorem executeRun_WF {T U : Type} (p : Poll T U) (id : ℕ) (hidden : Bool)
    (dir : Bool) (eps : ℚ) (now : ℕ) (hid : id < p.fresh) (h : WF p) :
    WF (executeRun p id hidden dir eps now).1 := by
  obtain ⟨h1, h2, h3, h4, h5⟩ := h
  unfold executeRun
  by_cases hd : p.isDisposed = true
  · rw [if_pos hd]
    exact ⟨h1, h2, h3, h4, h5⟩
  · rw [if_neg hd]
    by_cases hh : hidden = true
    · rw [if_pos hh]
      exact resolveTick_WF _ _ _ ⟨h1, h2, h3, h4, h5⟩
    · rw [if_neg hh]
      refine ⟨h1, h2, ?_, h4, h5⟩
      intro t ht
      rcases List.mem_cons.1 ht with h' | h'
      · subst h'; exact hid
      · exact h3 t h'

theorem settleRun_WF {T U : Type} (p : Poll T U) (id : ℕ) (o : T ⊕ U)
    (dir : Bool) (eps : ℚ) (now : ℕ) (h : WF p) :
    WF (settleRun p id o dir eps now).1 := by
  unfold settleRun
  by_cases hd : p.isDisposed = true
  · rw [if_pos hd]; exact h
  · rw [if_neg hd]
    by_cases ht : p.tick = some id
    · rw [if_neg (not_not_intro ht)]
      cases o with
      | inl v => exact resolveTick_WF _ _ _ h
      | inr r => exact resolveTick_WF _ _ _ h
    · rw [if_pos ht]; exact h

theorem step_WF {T U : Type} (p : Poll T U) (e : Event T U) (h : WF p) :
    WF (step p e).1 := by
  obtain ⟨h1, h2, h3, h4, h5⟩ := h
  cases e with
  | gate ok now =>
      simp only [step]
      by_cases hg : p.gateDone = true
      · rw [if_pos hg]; exact ⟨h1, h2, h3, h4, h5⟩
      · rw [if_neg hg]
        unfold gateSettleRun
        by_cases hd : p.isDisposed = true
        · rw [if_pos hd]
          exact ⟨fun hc => by simp [hd] at hc, h2, h3, h4, h5⟩
        · rw [if_neg hd]
          have hwf : WF ({ p with gateDone := true } : Poll T U) :=
            ⟨h1, h2, h3, h4, h5⟩
          cases ok with
          | true => rw [if_pos rfl]; exact resolveTick_WF _ _ _ hwf
          | false =>
              rw [if_neg (by simp)]
              exact resolveTick_WF _ _ _ hwf
  | fire id hidden dir eps now =>
      simp only [step]
      by_cases ha : p.pendingTimeout = some id
      · rw [if_pos ha]
        have hid : id < p.fresh := h4 id ha
        exact executeRun_WF _ id hidden dir eps now hid ⟨h1, h2, h3, by simp, h5⟩
      · rw [if_neg ha]
        by_cases hb : id ∈ p.pendingFrames
        · rw [if_pos hb]
          have hid : id < p.fresh := h5 id hb
          exact executeRun_WF _ id hidden dir eps now hid
            ⟨h1, h2, h3, h4, fun t ht => h5 t (List.mem_of_mem_erase ht)⟩
        · rw [if_neg hb]
          exact ⟨h1, h2, h3, h4, h5⟩
  | settle id o dir eps now =>
      simp only [step]
      by_cases ha : id ∈ p.inflight
      · rw [if_pos ha]
        exact settleRun_WF _ id o dir eps now
          ⟨h1, h2, fun t ht => h3 t (List.mem_of_mem_erase ht), h4, h5⟩
      · rw [if_neg ha]
        exact ⟨h1, h2, h3, h4, h5⟩
  | refresh now => exact resolveTick_WF p p.tick _ ⟨h1, h2, h3, h4, h5⟩
  | dispose =>
      simp only [step]
      unfold disposeRun
      by_cases hd : p.isDisposed = true
      · rw [if_pos hd]; exact ⟨h1, h2, h3, h4, h5⟩
      · rw [if_neg hd]
        cases htick : p.tick with
        | none =>
            exact ⟨fun hc => by simp at hc, fun t ht => by simp at ht, h3, h4, h5⟩
        | some t =>
            exact ⟨fun hc => by simp at hc, fun t2 ht => by simp at ht, h3, h4, h5⟩

theorem run_WF {T U : Type} (p : Poll T U) (evs : List (Event T U))
    (h : WF p) : WF (run p evs).1 := by
  induction evs generalizing p with
  | nil => exact h
  | cons e es ih => exact ih (step p e).1 (step_WF p e h)

theorem step_dispose_isDisposed {T U : Type} (p : Poll T U) :
    (step p Event.dispose).1.isDisposed = true := by
  simp only [step]
  unfold disposeRun
  by_cases hd : p.isDisposed = true
  · rw [if_pos hd]; exact hd
  · rw [if_neg hd]
    cases p.tick <;> rfl

theorem step_dispose_pending {T U : Type} (p : Poll T U) :
    (step p Event.dispose).1.pendingTimeout = p.pendingTimeout ∧
    (step p Event.dispose).1.pendingFrames = p.pendingFrames := by
  simp only [step]
  unfold disposeRun
  by_cases hd : p.isDisposed = true
  · rw [if_pos hd]; exact ⟨rfl, rfl⟩
  · rw [if_neg hd]
    cases p.tick <;> exact ⟨rfl, rfl⟩

theorem step_dispose_tick_none {T U : Type} (p : Poll T U)
    (h : p.isDisposed = false) : (step p Event.dispose).1.tick = none := by
  simp only [step]
  unfold disposeRun
  rw [if_neg (by simp [h])]
  cases htick : p.tick with
  | none => rfl
  | some t => rfl

theorem step_fire_disposed_noop {T U : Type} (p : Poll T U)
    (h : p.isDisposed = true) (id : ℕ) (hidden dir : Bool) (eps : ℚ)
    (now : ℕ) :
    (step p (Event.fire id hidden dir eps now)).2 = [] ∧
    (step p (Event.fire id hidden dir eps now)).1.state = p.state := by
  simp only [step]
  by_cases h1 : p.pendingTimeout = some id
  · rw [if_pos h1]
    unfold executeRun
    rw [if_pos h]
    exact ⟨rfl, rfl⟩
  · rw [if_neg h1]
    by_cases h2 : id ∈ p.pendingFrames
    · rw [if_pos h2]
      unfold executeRun
      rw [if_pos h]
      exact ⟨rfl, rfl⟩
    · rw [if_neg h2]
      exact ⟨rfl, rfl⟩

/-! ### Claim C1 -/

/-- C1 counterexample.  The claim states that after disposal no phase
transition and no `ticked` emission occurs whatever operations follow.  In
the code, `refresh()` performs no disposal check: after `dispose`, a first
`refresh()` call still installs a `refresh` state (a phase transition), and
a second one resolves the tick the first created and emits `ticked`.  The
trace below disposes the poll and then calls `refresh()` twice; both an
`installed` observation and a `ticked` observation occur strictly after the
`disposed` emission. -/
theorem C1_cex_post_dispose_transitions :
    (run (initPoll ℕ ℕ cfgStd 0)
        [Event.dispose, Event.refresh 5, Event.refresh 6]).2.take 2 =
      [Obs.rejectedTick 0, Obs.disposedSig] ∧
    Obs.installed ⟨0, none, Phase.refresh, 5⟩ ∈
      (run (initPoll ℕ ℕ cfgStd 0)
        [Event.dispose, Event.refresh 5, Event.refresh 6]).2.drop 2 ∧
    Obs.ticked ∈
      (run (initPoll ℕ ℕ cfgStd 0)
        [Event.dispose, Event.refresh 5, Event.refresh 6]).2.drop 2 := by
  decide

/-- C1 amended.  For every disposed poll: (a) no factory invocation ever
begins afterwards, whatever operations follow (timer/frame firings, factory
settlements, gate settlement, refresh and dispose calls); and (b) any
sequence of follow-up operations that contains no `refresh()` call produces
no observable effect at all — no phase transition, no factory invocation,
no tick resolution and no `ticked` emission.  (`refresh()` calls are the
sole exception: as the counterexample shows, they still install a `refresh`
state and can emit `ticked`.) -/
theorem C1_amended_disposed_quiescent (p : Poll ℕ ℕ) (evs : List (Event ℕ ℕ))
    (h : p.isDisposed = true) :
    (∀ id s, Obs.invoked id s ∉ (run p evs).2) ∧
    ((∀ e ∈ evs, e.isRefresh = false) → (run p evs).2 = []) :=
  ⟨fun id s => run_disposed_no_invoked p evs h id s,
   fun hr => run_disposed_obs_empty p evs h hr⟩

/-- Witness for the amended C1: a freshly disposed poll produces no
observations across a firing, a gate settlement and a second dispose. -/
theorem C1_amended_witness :
    (run (step (initPoll ℕ ℕ cfgStd 0) Event.dispose).1
      [Event.fire 0 false true 0 0, Event.gate true 0, Event.dispose]).2 = [] :=
  (C1_amended_disposed_quiescent _ _ (by decide)).2 (by decide)

/-! ### Claim C2 -/

/-- C2 counterexample.  The claim states `jitter(base, 0, min, max) =
round(base)` clamped into `[min, max]` for every `min ≤ max`.  In the code
the `factor === 0` branch returns `Math.round(base)` before the clamp is
ever reached: at `base = 0, min = 100, max = 10000` the code returns `0`
while the clamped value is `100`. -/
theorem C2_cex_jitter_unclamped :
    jitter 0 0 100 10000 true 0 = 0 ∧
    jitter 0 0 100 10000 true 0 ≠
      min (max 100 ((round (0 : ℚ) : ℤ) : ℚ)) 10000 := by
  constructor <;> norm_num [jitter, min_def, max_def]

/-- C2 amended.  `jitter(base, 0, min, max)` is exactly `round(base)` with
no clamping applied (the clamp runs only on the nonzero-factor path); in
particular it agrees with the clamped value exactly when `round(base)`
already lies within `[min, max]`. -/
theorem C2_amended_jitter_zero_factor (base mn mx : ℚ) (dir : Bool)
    (eps : ℚ) :
    jitter base 0 mn mx dir eps = ((round base : ℤ) : ℚ) ∧
    (mn ≤ ((round base : ℤ) : ℚ) → ((round base : ℤ) : ℚ) ≤ mx →
      jitter base 0 mn mx dir eps =
        min (max mn ((round base : ℤ) : ℚ)) mx) := by
  refine ⟨jitter_factor_zero base mn mx dir eps, fun h1 h2 => ?_⟩
  rw [jitter_factor_zero base mn mx dir eps, max_eq_right h1, min_eq_left h2]

/-- Witness for the amended C2 at `base = 1000`, `[min, max] = [100,
10000]`. -/
theorem C2_amended_witness :
    jitter 1000 0 100 10000 true 0 = ((round (1000 : ℚ) : ℤ) : ℚ) ∧
    jitter 1000 0 100 10000 true 0 =
      min (max 100 ((round (1000 : ℚ) : ℤ) : ℚ)) 10000 :=
  ⟨(C2_amended_jitter_zero_factor 1000 100 10000 true 0).1,
   (C2_amended_jitter_zero_factor 1000 100 10000 true 0).2
     (by norm_num) (by norm_num)⟩

/-! ### Claim C5 -/

/-- C5.  A factory settlement whose invocation captured a tick identity
that is no longer the outstanding one (`poll !== this._tick`) never mutates
the poll: the installed state and the outstanding tick are unchanged, and
no observation — no installation, no resolution, no `ticked` — is produced;
the outcome is discarded. -/
theorem C5_superseded_settlement_discarded (p : Poll ℕ ℕ) (id : ℕ)
    (o : ℕ ⊕ ℕ) (dir : Bool) (eps : ℚ) (now : ℕ) (h : p.tick ≠ some id) :
    (step p (Event.settle id o dir eps now)).1.state = p.state ∧
    (step p (Event.settle id o dir eps now)).1.tick = p.tick ∧
    (step p (Event.settle id o dir eps now)).2 = [] :=
  step_settle_stale p id o dir eps now h

/-- Witness for C5: an in-flight invocation for tick `5` settles while the
outstanding tick is `0`; nothing changes. -/
theorem C5_witness :
    (step ({ initPoll ℕ ℕ cfgStd 0 with inflight := [5] } : Poll ℕ ℕ)
        (Event.settle 5 (Sum.inl 9) true 0 3)).1.state =
      ({ initPoll ℕ ℕ cfgStd 0 with inflight := [5] } : Poll ℕ ℕ).state ∧
    (step ({ initPoll ℕ ℕ cfgStd 0 with inflight := [5] } : Poll ℕ ℕ)
        (Event.settle 5 (Sum.inl 9) true 0 3)).1.tick =
      ({ initPoll ℕ ℕ cfgStd 0 with inflight := [5] } : Poll ℕ ℕ).tick ∧
    (step ({ initPoll ℕ ℕ cfgStd 0 with inflight := [5] } : Poll ℕ ℕ)
        (Event.settle 5 (Sum.inl 9) true 0 3)).2 = [] :=
  C5_superseded_settlement_discarded _ 5 (Sum.inl 9) true 0 3 (by decide)

/-! ### Claim C9 -/

/-- C9 counterexample.  The claim states that `dispose()` cancels the
pending timer/frame handle.  The code's `dispose` never touches
`this._timeout`: after the gate settles (arming a `setTimeout` for the
first tick) and `dispose()` runs, the poll is disposed yet the timeout is
still armed. -/
theorem C9_cex_dispose_leaves_timer :
    (run (initPoll ℕ ℕ cfgStd 0) [Event.gate true 0, Event.dispose]).1.isDisposed
      = true ∧
    (run (initPoll ℕ ℕ cfgStd 0)
        [Event.gate true 0, Event.dispose]).1.pendingTimeout = some 1 := by
  decide

/-- C9 amended.  `dispose()` does not release the pending timer or frame
handle: both survive disposal unchanged.  The armed handle remains until it
fires on its own, and that firing is harmless — it produces no observation
and leaves the state untouched, because `_execute` aborts on its disposal
check before reaching the factory. -/
theorem C9_amended_dispose_keeps_handles (p : Poll ℕ ℕ)
    (h : p.isDisposed = false) (id : ℕ) (hidden dir : Bool) (eps : ℚ)
    (now : ℕ) :
    (step p Event.dispose).1.pendingTimeout = p.pendingTimeout ∧
    (step p Event.dispose).1.pendingFrames = p.pendingFrames ∧
    (step (step p Event.dispose).1 (Event.fire id hidden dir eps now)).2 = [] ∧
    (step (step p Event.dispose).1 (Event.fire id hidden dir eps now)).1.state =
      (step p Event.dispose).1.state :=
  ⟨(step_dispose_pending p).1, (step_dispose_pending p).2,
   (step_fire_disposed_noop _ (step_dispose_isDisposed p) id hidden dir eps now).1,
   (step_fire_disposed_noop _ (step_dispose_isDisposed p) id hidden dir eps now).2⟩

/-- Witness for the amended C9 on a live poll whose timer for tick `1` is
armed. -/
theorem C9_amended_witness :
    (step (run (initPoll ℕ ℕ cfgStd 0) [Event.gate true 0]).1
        Event.dispose).1.pendingTimeout =
      (run (initPoll ℕ ℕ cfgStd 0) [Event.gate true 0]).1.pendingTimeout ∧
    (step (run (initPoll ℕ ℕ cfgStd 0) [Event.gate true 0]).1
        Event.dispose).1.pendingFrames =
      (run (initPoll ℕ ℕ cfgStd 0) [Event.gate true 0]).1.pendingFrames ∧
    (step (step (run (initPoll ℕ ℕ cfgStd 0) [Event.gate true 0]).1
        Event.dispose).1 (Event.fire 1 false true 0 7)).2 = [] ∧
    (step (step (run (initPoll ℕ ℕ cfgStd 0) [Event.gate true 0]).1
        Event.dispose).1 (Event.fire 1 false true 0 7)).1.state =
      (step (run (initPoll ℕ ℕ cfgStd 0) [Event.gate true 0]).1
        Event.dispose).1.state :=
  C9_amended_dispose_keeps_handles _ (by decide) 1 false true 0 7

/-! ### Claim C10 -/

/-- C10.  `dispose()` on a live poll nulls the internal outstanding-tick
reference, and it stays null across any following operations that include
no `refresh()` call; reading the `tick` accessor in that window dereferences
the null reference (modelled by `tickAccess` returning `none`, the
`TypeError`), even though the spec presents `tick` as always available. -/
theorem C10_tick_access_after_dispose :
    (∀ p : Poll ℕ ℕ, p.isDisposed = false →
      tickAccess (step p Event.dispose).1 = none) ∧
    (∀ (p : Poll ℕ ℕ) (evs : List (Event ℕ ℕ)),
      p.isDisposed = true → tickAccess p = none →
      (∀ e ∈ evs, e.isRefresh = false) →
      tickAccess (run p evs).1 = none) :=
  ⟨fun p h => step_dispose_tick_none p h,
   fun p evs h ht hr => run_disposed_tick_none p evs h ht hr⟩

/-- Witness for C10: dispose a fresh poll, then fire the (still armed)
handle and settle a stray invocation; `tickAccess` yields `none`
throughout. -/
theorem C10_witness :
    tickAccess (step (initPoll ℕ ℕ cfgStd 0) Event.dispose).1 = none ∧
    tickAccess (run (step (initPoll ℕ ℕ cfgStd 0) Event.dispose).1
      [Event.fire 0 false true 0 0,
       Event.settle 0 (Sum.inl 1) true 0 0, Event.dispose]).1 = none :=
  ⟨C10_tick_access_after_dispose.1 _ rfl,
   C10_tick_access_after_dispose.2 _ _ (by decide) (by decide) (by decide)⟩

/-! ### Claim C6 -/

theorem jsGt_eq_true_iff (a b : Option ℚ) :
    jsGt a b = true ↔ ∃ x, a = some x ∧ ∃ y, b = some y ∧ y < x := by
  cases a with
  | none => simp [jsGt]
  | some x =>
      cases b with
      | none => simp [jsGt]
      | some y => simp [jsGt]

/-- C6.  For every options record — the numerics may each be supplied or
left unspecified — construction fails synchronously (the poll is not
created) if and only if the supplied numeric relationships are invalid:
the supplied `interval` exceeds the supplied `max`, or the supplied `min`
exceeds the supplied `max`, or the supplied `min` exceeds the supplied
`interval` (validation runs before defaulting, so a relationship involving
an unspecified numeric cannot fail; a comparison against `undefined` is
false).  Otherwise the poll is created with its recorded configuration:
`round(|interval|)` defaulting to `1000`, `|max|` defaulting to
`10 × interval`, `|min|` defaulting to `100`, `variance` defaulting to
`0.2`, live and in phase `standby`. -/
theorem C6_construct_validation (o : Options) (now : ℕ) :
    ((∃ e, construct ℕ ℕ o now = Except.error e) ↔
      ((∃ i, o.interval = some i ∧ ∃ m, o.max = some m ∧ m < i) ∨
       (∃ mn, o.min = some mn ∧ ∃ m, o.max = some m ∧ m < mn) ∨
       (∃ mn, o.min = some mn ∧ ∃ i, o.interval = some i ∧ i < mn))) ∧
    (¬((∃ i, o.interval = some i ∧ ∃ m, o.max = some m ∧ m < i) ∨
       (∃ mn, o.min = some mn ∧ ∃ m, o.max = some m ∧ m < mn) ∨
       (∃ mn, o.min = some mn ∧ ∃ i, o.interval = some i ∧ i < mn)) →
      ∃ p, construct ℕ ℕ o now = Except.ok p ∧
        p.cfg.interval = (match o.interval with
          | some x => ((round |x| : ℤ) : ℚ)
          | none => 1000) ∧
        p.cfg.max = (match o.max with
          | some x => |x|
          | none => 10 * p.cfg.interval) ∧
        p.cfg.min = (match o.min with
          | some x => |x|
          | none => 100) ∧
        p.cfg.variance = (match o.variance with
          | some x => x
          | none => 1 / 5) ∧
        p.isDisposed = false ∧ p.state.phase = Phase.standby) := by
  constructor
  · constructor
    · rintro ⟨e, he⟩
      by_cases h1 : jsGt o.interval o.max = true
      · exact Or.inl ((jsGt_eq_true_iff _ _).1 h1)
      · cases ha : jsGt o.min o.max with
        | true => exact Or.inr (Or.inl ((jsGt_eq_true_iff _ _).1 ha))
        | false =>
            cases hb : jsGt o.min o.interval with
            | true => exact Or.inr (Or.inr ((jsGt_eq_true_iff _ _).1 hb))
            | false =>
                exfalso
                unfold construct at he
                rw [if_neg h1, if_neg (by rw [ha, hb]; simp)] at he
                simp at he
    · intro h
      by_cases h1 : jsGt o.interval o.max = true
      · exact ⟨_, by unfold construct; rw [if_pos h1]⟩
      · rcases h with h | h | h
        · exact absurd ((jsGt_eq_true_iff _ _).2 h) h1
        · exact ⟨_, by
            unfold construct
            rw [if_neg h1,
              if_pos (by rw [(jsGt_eq_true_iff o.min o.max).2 h]; simp)]⟩
        · exact ⟨_, by
            unfold construct
            rw [if_neg h1,
              if_pos (by rw [(jsGt_eq_true_iff o.min o.interval).2 h]; simp)]⟩
  · intro hval
    have h1 : ¬ jsGt o.interval o.max = true := fun hc =>
      hval (Or.inl ((jsGt_eq_true_iff _ _).1 hc))
    have h2 : ¬ (jsGt o.min o.max || jsGt o.min o.interval) = true := by
      intro hc
      cases ha : jsGt o.min o.max with
      | true => exact hval (Or.inr (Or.inl ((jsGt_eq_true_iff _ _).1 ha)))
      | false =>
          cases hb : jsGt o.min o.interval with
          | true => exact hval (Or.inr (Or.inr ((jsGt_eq_true_iff _ _).1 hb)))
          | false => rw [ha, hb] at hc; simp at hc
    refine ⟨initPoll ℕ ℕ
      ⟨(match o.interval with
        | some x => ((round |x| : ℤ) : ℚ)
        | none => 1000),
       (match o.max with
        | some x => |x|
        | none => 10 * (match o.interval with
            | some x => ((round |x| : ℤ) : ℚ)
            | none => 1000)),
       (match o.min with
        | some x => |x|
        | none => 100),
       (match o.name with
        | some s => if s = "" then "unknown" else s
        | none => "unknown"),
       (match o.variance with
        | some x => x
        | none => 1 / 5)⟩ now, ?_, rfl, rfl, rfl, rfl, rfl, rfl⟩
    unfold construct
    rw [if_neg h1, if_neg h2]

/-- Witness for C6 on the partially specified record `{interval: 50}`:
validation is skipped on the unsupplied numerics (a comparison against
`undefined` is false), no error is thrown, and the poll is created with
the defaulted recorded configuration — `min = 100`, `max = 10 × 50` —
even though the recorded `min` exceeds the recorded `interval`. -/
theorem C6_witness :
    ∃ p, construct ℕ ℕ ⟨some 50, none, none, none, none⟩ 0 =
        Except.ok p ∧
      p.cfg.interval = ((round |(50 : ℚ)| : ℤ) : ℚ) ∧
      p.cfg.max = 10 * p.cfg.interval ∧
      p.cfg.min = 100 ∧ p.cfg.variance = 1 / 5 ∧
      p.isDisposed = false ∧ p.state.phase = Phase.standby :=
  (C6_construct_validation ⟨some 50, none, none, none, none⟩ 0).2 (by simp)

/-! ### Claim C7 -/

theorem refresh_spec {p : Poll ℕ ℕ} (hwf : WF p) (hd : p.isDisposed = false)
    (now : ℕ) :
    ∃ t, p.tick = some t ∧
      (step p (Event.refresh now)).1.state = ⟨0, none, Phase.refresh, now⟩ ∧
      (step p (Event.refresh now)).2 =
        [Obs.installed ⟨0, none, Phase.refresh, now⟩, Obs.resolvedTick t,
         Obs.ticked] ∧
      refreshRet p now = some p.fresh ∧
      (step p (Event.refresh now)).1.tick = some p.fresh ∧
      t ≠ p.fresh ∧
      ∀ i ∈ p.inflight, ∀ (o : ℕ ⊕ ℕ) (dir : Bool) (eps : ℚ) (n2 : ℕ),
        (step (step p (Event.refresh now)).1
            (Event.settle i o dir eps n2)).1.state =
          (step p (Event.refresh now)).1.state ∧
        (step (step p (Event.refresh now)).1
            (Event.settle i o dir eps n2)).2 = [] := by
  obtain ⟨h1, h2, h3, h4, h5⟩ := hwf
  obtain ⟨t, ht⟩ := h1 hd
  refine ⟨t, ht, ?_, ?_, ?_, ?_, ?_, ?_⟩
  · simp [step, refreshRun, ht, resolveTick, schedule]
  · simp [step, refreshRun, ht, resolveTick, schedule]
  · simp [refreshRet, ht, resolveTick, schedule]
  · simp [step, refreshRun, ht, resolveTick, schedule]
  · exact fun hc => absurd ht (by rw [hc]; exact fun hx => absurd (h2 _ hx) (lt_irrefl _))
  · intro i hi o dir eps n2
    have htick2 : (step p (Event.refresh now)).1.tick = some p.fresh := by
      simp [step, refreshRun, ht, resolveTick, schedule]
    have hne : (step p (Event.refresh now)).1.tick ≠ some i := by
      rw [htick2]
      intro hc
      exact absurd (h3 i hi) (by rw [Option.some.inj hc]; exact lt_irrefl _)
    exact ⟨(step_settle_stale _ i o dir eps n2 hne).1,
      (step_settle_stale _ i o dir eps n2 hne).2.2⟩

/-- C7.  On any reachable live poll, `refresh()` installs a state with
phase `refresh`, interval `0` and payload `null`; resolves the previously
outstanding tick promise and emits `ticked` for it; returns the newly
created outstanding tick promise, which is distinct from the one it
resolved; and supersedes every in-flight factory invocation — any later
settlement of one leaves the state unchanged and produces no
observation. -/
theorem C7_refresh_supersedes (c : Config) (t0 : ℕ) (evs : List (Event ℕ ℕ))
    (p : Poll ℕ ℕ) (hp : p = (run (initPoll ℕ ℕ c t0) evs).1)
    (hd : p.isDisposed = false) (now : ℕ) :
    ∃ t, p.tick = some t ∧
      (step p (Event.refresh now)).1.state = ⟨0, none, Phase.refresh, now⟩ ∧
      (step p (Event.refresh now)).2 =
        [Obs.installed ⟨0, none, Phase.refresh, now⟩, Obs.resolvedTick t,
         Obs.ticked] ∧
      refreshRet p now = some p.fresh ∧
      (step p (Event.refresh now)).1.tick = some p.fresh ∧
      t ≠ p.fresh ∧
      ∀ i ∈ p.inflight, ∀ (o : ℕ ⊕ ℕ) (dir : Bool) (eps : ℚ) (n2 : ℕ),
        (step (step p (Event.refresh now)).1
            (Event.settle i o dir eps n2)).1.state =
          (step p (Event.refresh now)).1.state ∧
        (step (step p (Event.refresh now)).1
            (Event.settle i o dir eps n2)).2 = [] := by
  subst hp
  exact refresh_spec (run_WF _ evs (initPoll_WF ℕ ℕ c t0)) hd now

/-- Witness for C7 on the poll reached by letting the gate settle. -/
theorem C7_witness :
    ∃ t, (run (initPoll ℕ ℕ cfgStd 0) [Event.gate true 0]).1.tick = some t ∧
      (step (run (initPoll ℕ ℕ cfgStd 0) [Event.gate true 0]).1
          (Event.refresh 5)).1.state = ⟨0, none, Phase.refresh, 5⟩ ∧
      (step (run (initPoll ℕ ℕ cfgStd 0) [Event.gate true 0]).1
          (Event.refresh 5)).2 =
        [Obs.installed ⟨0, none, Phase.refresh, 5⟩, Obs.resolvedTick t,
         Obs.ticked] ∧
      refreshRet (run (initPoll ℕ ℕ cfgStd 0) [Event.gate true 0]).1 5 =
        some (run (initPoll ℕ ℕ cfgStd 0) [Event.gate true 0]).1.fresh ∧
      (step (run (initPoll ℕ ℕ cfgStd 0) [Event.gate true 0]).1
          (Event.refresh 5)).1.tick =
        some (run (initPoll ℕ ℕ cfgStd 0) [Event.gate true 0]).1.fresh ∧
      t ≠ (run (initPoll ℕ ℕ cfgStd 0) [Event.gate true 0]).1.fresh ∧
      ∀ i ∈ (run (initPoll ℕ ℕ cfgStd 0) [Event.gate true 0]).1.inflight,
        ∀ (o : ℕ ⊕ ℕ) (dir : Bool) (eps : ℚ) (n2 : ℕ),
        (step (step (run (initPoll ℕ ℕ cfgStd 0) [Event.gate true 0]).1
            (Event.refresh 5)).1 (Event.settle i o dir eps n2)).1.state =
          (step (run (initPoll ℕ ℕ cfgStd 0) [Event.gate true 0]).1
            (Event.refresh 5)).1.state ∧
        (step (step (run (initPoll ℕ ℕ cfgStd 0) [Event.gate true 0]).1
            (Event.refresh 5)).1 (Event.settle i o dir eps n2)).2 = [] :=
  C7_refresh_supersedes cfgStd 0 [Event.gate true 0] _ rfl (by decide) 5

/-! ### Claims C3 and C8: factory settlement transitions -/

theorem step_settle_rejected {T U : Type} (p : Poll T U) (id : ℕ) (r : U)
    (dir : Bool) (eps : ℚ) (now : ℕ) (hd : p.isDisposed = false)
    (ht : p.tick = some id) (hi : id ∈ p.inflight) :
    (step p (Event.settle id (Sum.inr r) dir eps now)).1.state =
      ⟨jitter (min (p.state.interval * 2) p.cfg.max) p.cfg.variance
          p.cfg.min p.cfg.max dir eps, some (Sum.inr r),
        Phase.rejected, now⟩ ∧
    (step p (Event.settle id (Sum.inr r) dir eps now)).2 =
      [Obs.installed
        ⟨jitter (min (p.state.interval * 2) p.cfg.max) p.cfg.variance
            p.cfg.min p.cfg.max dir eps, some (Sum.inr r),
          Phase.rejected, now⟩,
       Obs.resolvedTick id, Obs.ticked] := by
  simp only [step]
  rw [if_pos hi]
  unfold settleRun
  rw [if_neg (by simp [hd]), if_neg (by simp [ht])]
  exact ⟨rfl, rfl⟩

theorem step_settle_resolved {T U : Type} (p : Poll T U) (id : ℕ) (v : T)
    (dir : Bool) (eps : ℚ) (now : ℕ) (hd : p.isDisposed = false)
    (ht : p.tick = some id) (hi : id ∈ p.inflight) :
    (step p (Event.settle id (Sum.inl v) dir eps now)).1.state =
      ⟨jitter p.cfg.interval p.cfg.variance p.cfg.min p.cfg.max dir eps,
        some (Sum.inl v),
        if p.state.phase = Phase.rejected then Phase.reconnect
        else Phase.resolved, now⟩ ∧
    (step p (Event.settle id (Sum.inl v) dir eps now)).2 =
      [Obs.installed
        ⟨jitter p.cfg.interval p.cfg.variance p.cfg.min p.cfg.max dir eps,
          some (Sum.inl v),
          if p.state.phase = Phase.rejected then Phase.reconnect
          else Phase.resolved, now⟩,
       Obs.resolvedTick id, Obs.ticked] := by
  simp only [step]
  rw [if_pos hi]
  unfold settleRun
  rw [if_neg (by simp [hd]), if_neg (by simp [ht])]
  exact ⟨rfl, rfl⟩

/-- The backoff scenario of the spec: the gate resolves and then the
factory fails on every one of five consecutive ticks. -/
def backoffTrace : List (Event ℕ ℕ) :=
  [Event.gate true 0,
   Event.fire 1 false true 0 0, Event.settle 1 (Sum.inr 0) true 0 0,
   Event.fire 2 false true 0 0, Event.settle 2 (Sum.inr 0) true 0 0,
   Event.fire 3 false true 0 0, Event.settle 3 (Sum.inr 0) true 0 0,
   Event.fire 4 false true 0 0, Event.settle 4 (Sum.inr 0) true 0 0,
   Event.fire 5 false true 0 0, Event.settle 5 (Sum.inr 0) true 0 0]

/-- C3.  A factory failure whose invocation is neither disposed nor
superseded installs a state with phase `rejected`, the failure reason as
payload, and interval `jitter(min(prior interval × 2, max), variance, min,
max)`; and on the concrete configuration `{interval: 1000, min: 100, max:
10000, variance: 0}` with an always-rejecting factory the installed states
are `when-resolved` at `1000` followed by `rejected` at `2000, 4000, 8000,
10000, 10000` — exponential backoff capped at `max`. -/
theorem C3_rejected_backoff :
    (∀ (p : Poll ℕ ℕ) (id : ℕ) (r : ℕ) (dir : Bool) (eps : ℚ) (now : ℕ),
      p.isDisposed = false → p.tick = some id → id ∈ p.inflight →
      (step p (Event.settle id (Sum.inr r) dir eps now)).1.state =
        ⟨jitter (min (p.state.interval * 2) p.cfg.max) p.cfg.variance
            p.cfg.min p.cfg.max dir eps, some (Sum.inr r),
          Phase.rejected, now⟩ ∧
      Obs.installed
          ⟨jitter (min (p.state.interval * 2) p.cfg.max) p.cfg.variance
              p.cfg.min p.cfg.max dir eps, some (Sum.inr r),
            Phase.rejected, now⟩ ∈
        (step p (Event.settle id (Sum.inr r) dir eps now)).2) ∧
    installedStates (run (initPoll ℕ ℕ cfgStd 0) backoffTrace).2 =
      [⟨1000, none, Phase.whenResolved, 0⟩,
       ⟨2000, some (Sum.inr 0), Phase.rejected, 0⟩,
       ⟨4000, some (Sum.inr 0), Phase.rejected, 0⟩,
       ⟨8000, some (Sum.inr 0), Phase.rejected, 0⟩,
       ⟨10000, some (Sum.inr 0), Phase.rejected, 0⟩,
       ⟨10000, some (Sum.inr 0), Phase.rejected, 0⟩] := by
  constructor
  · intro p id r dir eps now hd ht hi
    refine ⟨(step_settle_rejected p id r dir eps now hd ht hi).1, ?_⟩
    rw [(step_settle_rejected p id r dir eps now hd ht hi).2]
    simp
  · norm_num +decide [backoffTrace, installedStates, run, step, gateSettleRun,
      resolveTick, schedule, refreshRun, executeRun, settleRun, jitter,
      initPoll, cfgStd]

/-- Witness for the universal part of C3: a live poll in a `rejected`
state at interval `2000` whose in-flight invocation `3` fails. -/
theorem C3_witness :
    (step ({ initPoll ℕ ℕ cfgStd 0 with
        state := ⟨2000, some (Sum.inr 5), Phase.rejected, 0⟩,
        tick := some 3, fresh := 4, inflight := [3] } : Poll ℕ ℕ)
      (Event.settle 3 (Sum.inr 5) true 0 9)).1.state =
      ⟨jitter
          (min ((({ initPoll ℕ ℕ cfgStd 0 with
            state := ⟨2000, some (Sum.inr 5), Phase.rejected, 0⟩,
            tick := some 3, fresh := 4,
            inflight := [3] } : Poll ℕ ℕ)).state.interval * 2) cfgStd.max)
          cfgStd.variance cfgStd.min cfgStd.max true 0,
        some (Sum.inr 5), Phase.rejected, 9⟩ ∧
    Obs.installed
        ⟨jitter
            (min ((({ initPoll ℕ ℕ cfgStd 0 with
              state := ⟨2000, some (Sum.inr 5), Phase.rejected, 0⟩,
              tick := some 3, fresh := 4,
              inflight := [3] } : Poll ℕ ℕ)).state.interval * 2) cfgStd.max)
            cfgStd.variance cfgStd.min cfgStd.max true 0,
          some (Sum.inr 5), Phase.rejected, 9⟩ ∈
      (step ({ initPoll ℕ ℕ cfgStd 0 with
          state := ⟨2000, some (Sum.inr 5), Phase.rejected, 0⟩,
          tick := some 3, fresh := 4, inflight := [3] } : Poll ℕ ℕ)
        (Event.settle 3 (Sum.inr 5) true 0 9)).2 :=
  C3_rejected_backoff.1 _ 3 5 true 0 9 rfl rfl (by decide)

/-- The reconnect scenario of the spec: the factory fails twice and then
succeeds twice. -/
def reconnectTrace : List (Event ℕ ℕ) :=
  [Event.gate true 0,
   Event.fire 1 false true 0 0, Event.settle 1 (Sum.inr 7) true 0 0,
   Event.fire 2 false true 0 0, Event.settle 2 (Sum.inr 7) true 0 0,
   Event.fire 3 false true 0 0, Event.settle 3 (Sum.inl 42) true 0 0,
   Event.fire 4 false true 0 0, Event.settle 4 (Sum.inl 42) true 0 0]

/-- C8.  A factory success whose invocation is neither disposed nor
superseded installs a state whose phase is `reconnect` when the prior phase
was `rejected` and `resolved` otherwise, whose payload is the success
value, and whose interval is `jitter(configured interval, variance, min,
max)` — the nominal interval, not a doubled one; on the concrete
configuration `{interval: 1000, min: 100, max: 10000, variance: 0}` with a
factory that fails twice then succeeds, the installed states are
`when-resolved (1000)`, `rejected (2000)`, `rejected (4000)`,
`reconnect (1000)`, `resolved (1000)`. -/
theorem C8_success_reconnect :
    (∀ (p : Poll ℕ ℕ) (id : ℕ) (v : ℕ) (dir : Bool) (eps : ℚ) (now : ℕ),
      p.isDisposed = false → p.tick = some id → id ∈ p.inflight →
      (step p (Event.settle id (Sum.inl v) dir eps now)).1.state =
        ⟨jitter p.cfg.interval p.cfg.variance p.cfg.min p.cfg.max dir eps,
          some (Sum.inl v),
          if p.state.phase = Phase.rejected then Phase.reconnect
          else Phase.resolved, now⟩) ∧
    installedStates (run (initPoll ℕ ℕ cfgStd 0) reconnectTrace).2 =
      [⟨1000, none, Phase.whenResolved, 0⟩,
       ⟨2000, some (Sum.inr 7), Phase.rejected, 0⟩,
       ⟨4000, some (Sum.inr 7), Phase.rejected, 0⟩,
       ⟨1000, some (Sum.inl 42), Phase.reconnect, 0⟩,
       ⟨1000, some (Sum.inl 42), Phase.resolved, 0⟩] := by
  constructor
  · intro p id v dir eps now hd ht hi
    exact (step_settle_resolved p id v dir eps now hd ht hi).1
  · norm_num +decide [reconnectTrace, installedStates, run, step,
      gateSettleRun, resolveTick, schedule, refreshRun, executeRun,
      settleRun, jitter, initPoll, cfgStd]

/-- Witness for the universal part of C8: a live poll in a `rejected`
state whose in-flight invocation `3` succeeds; the installed phase is
`reconnect`. -/
theorem C8_witness :
    (step ({ initPoll ℕ ℕ cfgStd 0 with
        state := ⟨2000, some (Sum.inr 5), Phase.rejected, 0⟩,
        tick := some 3, fresh := 4, inflight := [3] } : Poll ℕ ℕ)
      (Event.settle 3 (Sum.inl 42) true 0 9)).1.state =
      ⟨jitter cfgStd.interval cfgStd.variance cfgStd.min cfgStd.max true 0,
        some (Sum.inl 42),
        if (({ initPoll ℕ ℕ cfgStd 0 with
            state := ⟨2000, some (Sum.inr 5), Phase.rejected, 0⟩,
            tick := some 3, fresh := 4,
            inflight := [3] } : Poll ℕ ℕ)).state.phase = Phase.rejected
        then Phase.reconnect else Phase.resolved, 9⟩ :=
  C8_success_reconnect.1 _ 3 42 true 0 9 rfl rfl (by decide)

/-! ### Claim C4: bounds on installed intervals

`ValidConfig` captures a valid recorded configuration in the sense of the
spec's data model: `0 ≤ min ≤ interval ≤ max`, all three integral
millisecond counts (the constructor rounds `interval`; `min` and `max` are
integral in every configuration the spec discusses). -/

def ValidConfig (c : Config) : Prop :=
  0 ≤ c.min ∧ c.min ≤ c.interval ∧ c.interval ≤ c.max ∧
  (∃ a : ℤ, c.interval = a) ∧ (∃ a : ℤ, c.min = a) ∧ (∃ a : ℤ, c.max = a)

/-- The invariant satisfied by every tick state the engine installs under a
valid configuration: a `refresh` state has interval `0`, and every state
either has an integral interval within `[min, max]` or has interval `0` and
is a `refresh` state or (only when `variance = 0`) a `rejected` state
produced while the current interval was `0`. -/
def StateOK (c : Config) {T U : Type} (s : TickState T U) : Prop :=
  (s.phase = Phase.refresh → s.interval = 0) ∧
  ((c.min ≤ s.interval ∧ s.interval ≤ c.max ∧ ∃ a : ℤ, s.interval = a) ∨
    (s.interval = 0 ∧ (s.phase = Phase.refresh ∨
      (s.phase = Phase.rejected ∧ c.variance = 0))))

theorem stateOK_nominal {c : Config} (hc : ValidConfig c) {T U : Type}
    (pl : Option (T ⊕ U)) (ph : Phase) (hph : ph ≠ Phase.refresh) (now : ℕ)
    (dir : Bool) (eps : ℚ) :
    StateOK c (⟨jitter c.interval c.variance c.min c.max dir eps, pl, ph,
      now⟩ : TickState T U) := by
  obtain ⟨h0, h1, h2, hi, hn, hx⟩ := hc
  obtain ⟨hj1, hj2, hj3⟩ :=
    jitter_base_in_range c.interval c.min c.max h1 h2 hi hn hx dir eps
  exact ⟨fun hp => absurd hp hph, Or.inl ⟨hj1, hj2, hj3⟩⟩

theorem stateOK_gate {c : Config} (hc : ValidConfig c) {T U : Type}
    (pl : Option (T ⊕ U)) (ph : Phase) (hph : ph ≠ Phase.refresh) (now : ℕ) :
    StateOK c (⟨c.interval, pl, ph, now⟩ : TickState T U) := by
  obtain ⟨h0, h1, h2, hi, hn, hx⟩ := hc
  exact ⟨fun hp => absurd hp hph, Or.inl ⟨h1, h2, hi⟩⟩

theorem stateOK_refresh (c : Config) {T U : Type} (now : ℕ) :
    StateOK c (⟨0, none, Phase.refresh, now⟩ : TickState T U) :=
  ⟨fun _ => rfl, Or.inr ⟨rfl, Or.inl rfl⟩⟩

theorem stateOK_rejected {c : Config} (hc : ValidConfig c) {T U : Type}
    {x : ℚ} (hx : (c.min ≤ x ∧ x ≤ c.max ∧ ∃ a : ℤ, x = a) ∨ x = 0)
    (pl : Option (T ⊕ U)) (now : ℕ) (dir : Bool) (eps : ℚ) :
    StateOK c (⟨jitter (min (x * 2) c.max) c.variance c.min c.max dir eps,
      pl, Phase.rejected, now⟩ : TickState T U) := by
  obtain ⟨h0, h1, h2, hii, hnn, hxx⟩ := hc
  refine ⟨fun hp => Phase.noConfusion hp, ?_⟩
  rcases hx with ⟨hx1, hx2, ⟨b, hb⟩⟩ | hx0
  · have hx0 : 0 ≤ x := h0.trans hx1
    have hbase1 : c.min ≤ min (x * 2) c.max :=
      le_min (by linarith) (h1.trans h2)
    have hbase2 : min (x * 2) c.max ≤ c.max := min_le_right _ _
    have hbase3 : ∃ a : ℤ, min (x * 2) c.max = a := by
      obtain ⟨mxa, hmxa⟩ := hxx
      refine ⟨min (b * 2) mxa, ?_⟩
      rw [hb, hmxa]
      push_cast
      rfl
    obtain ⟨hj1, hj2, hj3⟩ := jitter_base_in_range (min (x * 2) c.max)
      c.min c.max hbase1 hbase2 hbase3 hnn hxx dir eps
    exact Or.inl ⟨hj1, hj2, hj3⟩
  · subst hx0
    have hbz : min ((0 : ℚ) * 2) c.max = 0 := by
      rw [zero_mul]
      exact min_eq_left (h0.trans (h1.trans h2))
    rw [hbz]
    by_cases hv : c.variance = 0
    · rw [hv, jitter_factor_zero]
      exact Or.inr ⟨by norm_num, Or.inr ⟨rfl, rfl⟩⟩
    · rw [jitter_base_zero hv c.min c.max h0 (h1.trans h2) dir eps]
      exact Or.inl ⟨le_refl _, h1.trans h2, hnn⟩

theorem ite_phase_ne_refresh (b : Prop) [Decidable b] :
    (if b then Phase.reconnect else Phase.resolved) ≠ Phase.refresh := by
  split
  · exact fun h => Phase.noConfusion h
  · exact fun h => Phase.noConfusion h

theorem resolveTick_stateOK {c : Config} {T U : Type} (p : Poll T U)
    (o : Option ℕ) (s0 : TickState T U) (hcfg : p.cfg = c)
    (h : StateOK c s0) :
    (resolveTick p o s0).1.1.cfg = c ∧
    StateOK c (resolveTick p o s0).1.1.state ∧
    ∀ s, Obs.installed s ∈ (resolveTick p o s0).1.2 → StateOK c s := by
  cases o with
  | none =>
      refine ⟨hcfg, h, ?_⟩
      intro s hsm
      simp only [resolveTick, schedule, List.mem_singleton] at hsm
      rw [show s = s0 by injection hsm]
      exact h
  | some id =>
      refine ⟨hcfg, h, ?_⟩
      intro s hsm
      simp only [resolveTick, schedule, List.singleton_append,
        List.mem_cons, List.mem_singleton] at hsm
      rcases hsm with h1 | h1 | h1 | h1
      · rw [show s = s0 by injection h1]
        exact h
      · exact Obs.noConfusion h1
      · exact Obs.noConfusion h1
      · exact absurd h1 (by simp)

theorem executeRun_stateOK {c : Config} (hc : ValidConfig c) (p : Poll ℕ ℕ)
    (hcfg : p.cfg = c) (hs : StateOK c p.state) (id : ℕ) (hidden dir : Bool)
    (eps : ℚ) (now : ℕ) :
    (executeRun p id hidden dir eps now).1.cfg = c ∧
    StateOK c (executeRun p id hidden dir eps now).1.state ∧
    ∀ s, Obs.installed s ∈ (executeRun p id hidden dir eps now).2 →
      StateOK c s := by
  subst hcfg
  unfold executeRun
  by_cases hd : p.isDisposed = true
  · rw [if_pos hd]
    exact ⟨rfl, hs, fun s hsm => absurd hsm (by simp)⟩
  · rw [if_neg hd]
    by_cases hh : hidden = true
    · rw [if_pos hh]
      exact resolveTick_stateOK p (some id) _ rfl
        (stateOK_nominal hc none Phase.standby
          (fun h => Phase.noConfusion h) now dir eps)
    · rw [if_neg hh]
      exact ⟨rfl, hs, fun s hsm => absurd hsm (by simp)⟩

theorem step_stateOK {c : Config} (hc : ValidConfig c) (p : Poll ℕ ℕ)
    (hcfg : p.cfg = c) (hs : StateOK c p.state) (e : Event ℕ ℕ) :
    (step p e).1.cfg = c ∧ StateOK c (step p e).1.state ∧
      ∀ s, Obs.installed s ∈ (step p e).2 → StateOK c s := by
  subst hcfg
  cases e with
  | gate ok now =>
      simp only [step]
      by_cases hg : p.gateDone = true
      · rw [if_pos hg]
        exact ⟨rfl, hs, fun s hsm => absurd hsm (by simp)⟩
      · rw [if_neg hg]
        unfold gateSettleRun
        by_cases hd : p.isDisposed = true
        · rw [if_pos hd]
          exact ⟨rfl, hs, fun s hsm => absurd hsm (by simp)⟩
        · rw [if_neg hd]
          have hok : StateOK p.cfg
              (⟨p.cfg.interval, none,
                if ok = true then Phase.whenResolved else Phase.whenRejected,
                now⟩ : TickState ℕ ℕ) := by
            refine stateOK_gate hc none _ ?_ now
            cases ok with
            | true => exact fun h => Phase.noConfusion h
            | false => exact fun h => Phase.noConfusion h
          have hres := resolveTick_stateOK
            ({ p with gateDone := true } : Poll ℕ ℕ) (some p.gatePoll)
            _ rfl hok
          cases ok with
          | true => exact ⟨hres.1, hres.2.1, hres.2.2⟩
          | false =>
              rw [if_neg (by simp)]
              refine ⟨hres.1, hres.2.1, ?_⟩
              intro s hsm
              rcases List.mem_append.1 hsm with h1 | h1
              · exact hres.2.2 s h1
              · exact absurd h1 (by simp)
  | fire id hidden dir eps now =>
      simp only [step]
      by_cases ha : p.pendingTimeout = some id
      · rw [if_pos ha]
        exact executeRun_stateOK hc
          ({ p with pendingTimeout := none } : Poll ℕ ℕ) rfl hs
          id hidden dir eps now
      · rw [if_neg ha]
        by_cases hb : id ∈ p.pendingFrames
        · rw [if_pos hb]
          exact executeRun_stateOK hc
            ({ p with pendingFrames := p.pendingFrames.erase id } : Poll ℕ ℕ)
            rfl hs id hidden dir eps now
        · rw [if_neg hb]
          exact ⟨rfl, hs, fun s hsm => absurd hsm (by simp)⟩
  | settle id o dir eps now =>
      simp only [step]
      by_cases ha : id ∈ p.inflight
      · rw [if_pos ha]
        unfold settleRun
        by_cases hd :
            ({ p with inflight := p.inflight.erase id } : Poll ℕ ℕ).isDisposed
              = true
        · rw [if_pos hd]
          exact ⟨rfl, hs, fun s hsm => absurd hsm (by simp)⟩
        · rw [if_neg hd]
          by_cases ht :
              ({ p with inflight := p.inflight.erase id } : Poll ℕ ℕ).tick
                = some id
          · rw [if_neg (not_not_intro ht)]
            cases o with
            | inl v =>
                exact resolveTick_stateOK _ (some id) _ rfl
                  (stateOK_nominal hc (some (Sum.inl v)) _
                    (ite_phase_ne_refresh _) now dir eps)
            | inr r =>
                refine resolveTick_stateOK _ (some id) _ rfl
                  (stateOK_rejected hc ?_ (some (Sum.inr r)) now dir eps)
                rcases hs.2 with h1 | h1
                · exact Or.inl h1
                · exact Or.inr h1.1
          · rw [if_pos ht]
            exact ⟨rfl, hs, fun s hsm => absurd hsm (by simp)⟩
      · rw [if_neg ha]
        exact ⟨rfl, hs, fun s hsm => absurd hsm (by simp)⟩
  | refresh now =>
      exact resolveTick_stateOK p p.tick _ rfl (stateOK_refresh p.cfg now)
  | dispose =>
      simp only [step]
      unfold disposeRun
      by_cases hd : p.isDisposed = true
      · rw [if_pos hd]
        exact ⟨rfl, hs, fun s hsm => absurd hsm (by simp)⟩
      · rw [if_neg hd]
        cases p.tick with
        | none => exact ⟨rfl, hs, fun s hsm => absurd hsm (by simp)⟩
        | some t => exact ⟨rfl, hs, fun s hsm => absurd hsm (by simp)⟩

theorem run_stateOK {c : Config} (hc : ValidConfig c) (p : Poll ℕ ℕ)
    (hcfg : p.cfg = c) (hs : StateOK c p.state) (evs : List (Event ℕ ℕ)) :
    ∀ s, Obs.installed s ∈ (run p evs).2 → StateOK c s := by
  induction evs generalizing p with
  | nil => simp [run]
  | cons e es ih =>
      intro s hsm
      simp only [run, List.mem_append] at hsm
      rcases hsm with h1 | h2
      · exact (step_stateOK hc p hcfg hs e).2.2 s h1
      · exact ih (step p e).1 (step_stateOK hc p hcfg hs e).1
          (step_stateOK hc p hcfg hs e).2.1 s h2

/-- C4 counterexample.  Under the valid configuration `{interval: 1000,
min: 100, max: 10000, variance: 0}`, let the gate settle, call `refresh()`
(installing interval `0`), let the frame fire and the factory fail.  The
failure path doubles the *current* interval: `min(0 × 2, max) = 0`, and
with `variance = 0` the jitter returns `round(0) = 0` unclamped, so a state
with phase `rejected` — not `refresh` — and interval `0 < min` is
installed, contradicting the claim that only `refresh` ticks escape
`[min, max]`. -/
theorem C4_cex_rejected_zero_interval :
    (run (initPoll ℕ ℕ cfgStd 0)
        [Event.gate true 0, Event.refresh 0, Event.fire 2 false true 0 0,
         Event.settle 2 (Sum.inr 7) true 0 0]).1.state =
      ⟨0, some (Sum.inr 7), Phase.rejected, 0⟩ ∧
    Obs.installed ⟨0, some (Sum.inr 7), Phase.rejected, 0⟩ ∈
      (run (initPoll ℕ ℕ cfgStd 0)
        [Event.gate true 0, Event.refresh 0, Event.fire 2 false true 0 0,
         Event.settle 2 (Sum.inr 7) true 0 0]).2 ∧
    ¬(cfgStd.min ≤ (0 : ℚ)) := by
  refine ⟨?_, ?_, by norm_num [cfgStd]⟩ <;>
    norm_num +decide [installedStates, run, step, gateSettleRun, resolveTick,
      schedule, refreshRun, executeRun, settleRun, jitter, initPoll, cfgStd]

/-- C4 amended.  For every valid configuration (`0 ≤ min ≤ interval ≤ max`,
all integral), every tick state the engine ever installs satisfies:
`refresh` ticks have interval `0`, and every non-`refresh` tick has
`min ≤ interval ≤ max` except, when `variance = 0`, `rejected` ticks
installed while the current interval was `0` (the aftermath of a
`refresh`), which are installed with interval `0`.  In particular, for
`variance ≠ 0` the claim holds as originally stated. -/
theorem C4_amended_interval_bounds (c : Config) (t0 : ℕ)
    (evs : List (Event ℕ ℕ)) (s : TickState ℕ ℕ) (hc : ValidConfig c)
    (hmem : Obs.installed s ∈ (run (initPoll ℕ ℕ c t0) evs).2) :
    (s.phase = Phase.refresh → s.interval = 0) ∧
    (s.phase ≠ Phase.refresh →
      (c.min ≤ s.interval ∧ s.interval ≤ c.max) ∨
      (c.variance = 0 ∧ s.phase = Phase.rejected ∧ s.interval = 0)) := by
  have h0 : StateOK c (initPoll ℕ ℕ c t0).state := by
    obtain ⟨ha, hb, hcc, hi, hn, hx⟩ := hc
    exact ⟨fun hp => Phase.noConfusion hp, Or.inl ⟨hb, hcc, hi⟩⟩
  obtain ⟨ha, hb⟩ := run_stateOK hc _ rfl h0 evs s hmem
  refine ⟨ha, fun hph => ?_⟩
  rcases hb with ⟨hx1, hx2, _⟩ | ⟨hz, hcase⟩
  · exact Or.inl ⟨hx1, hx2⟩
  · rcases hcase with h1 | ⟨h1, hv⟩
    · exact absurd h1 hph
    · exact Or.inr ⟨hv, h1, hz⟩

/-- Witness for the amended C4: the `when-resolved` state installed by the
gate settlement under the standard configuration. -/
theorem C4_amended_witness :
    ((⟨1000, none, Phase.whenResolved, 0⟩ : TickState ℕ ℕ).phase =
        Phase.refresh →
      (⟨1000, none, Phase.whenResolved, 0⟩ : TickState ℕ ℕ).interval = 0) ∧
    ((⟨1000, none, Phase.whenResolved, 0⟩ : TickState ℕ ℕ).phase ≠
        Phase.refresh →
      (cfgStd.min ≤
          (⟨1000, none, Phase.whenResolved, 0⟩ : TickState ℕ ℕ).interval ∧
        (⟨1000, none, Phase.whenResolved, 0⟩ : TickState ℕ ℕ).interval ≤
          cfgStd.max) ∨
      (cfgStd.variance = 0 ∧
        (⟨1000, none, Phase.whenResolved, 0⟩ : TickState ℕ ℕ).phase =
          Phase.rejected ∧
        (⟨1000, none, Phase.whenResolved, 0⟩ : TickState ℕ ℕ).interval = 0)) :=
  C4_amended_interval_bounds cfgStd 0 [Event.gate true 0] _
    (by refine ⟨?_, ?_, ?_, ⟨1000, ?_⟩, ⟨100, ?_⟩, ⟨10000, ?_⟩⟩ <;>
      norm_num [cfgStd])
    (by norm_num +decide [run, step, gateSettleRun, resolveTick, schedule,
      initPoll, cfgStd])

end PollSpec
